import Mathlib

/-!
Verification of the core algorithms of the interactive 3D particle
installation: procedural position generation, the morph/interpolation
engine, the inertial rotation controller, the gesture classifier and the
photo-ornament collection.  Every definition is a shallow embedding of the
corresponding function of the repository; machine floats are modelled by
exact rationals (or reals where square roots and trigonometry occur).
-/

/-- THREE.MathUtils.lerp: linear interpolation `(1 - t) * x + t * y`
(also the `lerp` helper of the math utilities module). -/
def lerpQ (x y t : ℚ) : ℚ := (1 - t) * x + t * y

/-- THREE.MathUtils.smoothstep: clamps `(x - minV) / (maxV - minV)` to [0,1]
and applies the cubic `y * y * (3 - 2 * y)`. -/
def smoothstep (x minV maxV : ℚ) : ℚ :=
  if x ≤ minV then 0
  else if maxV ≤ x then 1
  else
    let y := (x - minV) / (maxV - minV)
    y * y * (3 - 2 * y)

/-- Morph progress step of `Scene.useFrame` (first version):
`diff = targetProgress - progress`; if `|diff| > 0.001` the progress
advances by `diff * speed * delta`, otherwise it snaps to the target. -/
def morphStep (targetProgress speed delta p : ℚ) : ℚ :=
  let diff := targetProgress - p
  if 1 / 1000 < |diff| then p + diff * speed * delta else targetProgress

/-- Morph progress step of `Scene.useFrame` (second version):
`progress = lerp(progress, targetProgress, delta * 4.0)`. -/
def morphStepLerp (targetProgress delta p : ℚ) : ℚ :=
  lerpQ p targetProgress (delta * 4)

/-- Folding the morph step over a whole sequence of frame delta times. -/
def morphRun (targetProgress speed : ℚ) (deltas : List ℚ) (p : ℚ) : ℚ :=
  deltas.foldl (fun q d => morphStep targetProgress speed d q) p

/-- Per-ornament dual-position record (`DualPosition` of `types.ts`):
both target positions, a phase offset, a scale and a rotation speed.
Coordinates are modelled as exact rationals. -/
structure DualPosition where
  tree : ℚ × ℚ × ℚ
  scatter : ℚ × ℚ × ℚ
  rotationSpeed : ℚ
  phaseOffset : ℚ
  scale : ℚ
deriving DecidableEq

/-- `easeProgress` of `PhotoItem.useFrame`: `THREE.MathUtils.smoothstep(progress, 0, 1)`. -/
def easeProgress (progress : ℚ) : ℚ := smoothstep progress 0 1

/-- Amplitude of the chaos oscillation terms of `PhotoItem.useFrame`
(`Math.sin(...) * 150.0 * inverseEase`): the factor multiplying the
sine/cosine oscillator.  It carries no drag factor in the source. -/
def chaosAmp (inverseEase : ℚ) : ℚ := 150 * inverseEase

/-- `floatFactor` of `PhotoItem.useFrame` (first version):
`isDragging ? 0 : 1.0`. -/
def floatFactor (isDragging : Bool) : ℚ := if isDragging then 0 else 1

/-- Float oscillation amplitude of `PhotoItem.useFrame` (first version):
`(15.0 + inverseEase * 60.0) * floatFactor`. -/
def floatAmp (inverseEase : ℚ) (isDragging : Bool) : ℚ :=
  (15 + inverseEase * 60) * floatFactor isDragging

/-- Float oscillation amplitude of the second `PhotoItem.useFrame` version:
`20.0 + inverseEase * 100.0` (no drag suspension in that version). -/
def floatAmpSecond (inverseEase : ℚ) : ℚ := 20 + inverseEase * 100

/-- The interpolated (non-oscillatory) part of the rendered target position
of `PhotoItem.useFrame`: `lerp(scatter, tree, easeProgress)` per axis. -/
def interpPos (d : DualPosition) (progress : ℚ) : ℚ × ℚ × ℚ :=
  (lerpQ d.scatter.1 d.tree.1 (easeProgress progress),
   lerpQ d.scatter.2.1 d.tree.2.1 (easeProgress progress),
   lerpQ d.scatter.2.2 d.tree.2.2 (easeProgress progress))

/-- State of the inertial rotation controller of `Scene`. -/
structure RotState where
  angularVelocity : ℚ
  lastHandX : ℚ
  rotationY : ℚ
deriving DecidableEq

/-- One `Scene.useFrame` tick of the inertia rotation logic (first version):
the gesture branch runs only when not dragging; friction `0.96`; idle
easing toward `0.05` when neither drag nor gesture is active; finally
`rotation.y += angularVelocity * delta`. -/
def frameStepV1 (isDragging isHandActive : Bool) (handX delta : ℚ)
    (s : RotState) : RotState :=
  let s1 :=
    if isDragging then s
    else if isHandActive then
      let handDelta := handX - s.lastHandX
      let av := s.angularVelocity + handDelta * 15
      let centerBias := handX - 1 / 2
      let av2 := if 1 / 5 < |centerBias| then av + centerBias * (1 / 10) else av
      { s with angularVelocity := av2, lastHandX := handX }
    else s
  let s2 := { s1 with angularVelocity := s1.angularVelocity * (96 / 100) }
  let s3 :=
    if !isDragging && !isHandActive then
      let av3 :=
        if |s2.angularVelocity| < 1 / 20 then lerpQ s2.angularVelocity (1 / 20) (1 / 20)
        else s2.angularVelocity
      { s2 with angularVelocity := av3, lastHandX := handX }
    else s2
  { s3 with rotationY := s3.rotationY + s3.angularVelocity * delta }

/-- One `Scene.useFrame` tick of the inertia rotation logic (second version):
a photo drag zeroes the velocity and returns early; the gesture branch is
guarded by `!isDraggingScene`; friction `0.90`; idle easing toward `0.015`. -/
def frameStepV2 (isDraggingPhoto isDraggingScene isHandActive : Bool)
    (handX delta : ℚ) (s : RotState) : RotState :=
  if isDraggingPhoto then { s with angularVelocity := 0 }
  else
    let s1 :=
      if !isDraggingScene && isHandActive then
        { s with angularVelocity := s.angularVelocity - (handX - s.lastHandX) * 1,
                 lastHandX := handX }
      else s
    let s2 := { s1 with angularVelocity := s1.angularVelocity * (90 / 100) }
    let s3 :=
      if !isDraggingScene && !isHandActive then
        if |s2.angularVelocity| < 3 / 200 then
          { s2 with angularVelocity := lerpQ s2.angularVelocity (3 / 200) (1 / 20) }
        else s2
      else s2
    { s3 with rotationY := s3.rotationY + s3.angularVelocity * delta }

/-- `Scene.handlePointerMove` (first version): only while dragging it
advances the rotation by `deltaX * 0.005` and sets the angular velocity
to `deltaX * 0.05`; returns `(lastMouseX, rotationY, angularVelocity)`. -/
def handlePointerMoveV1 (isDragging : Bool) (clientX lastMouseX rotationY av : ℚ) :
    ℚ × ℚ × ℚ :=
  if isDragging then
    let deltaX := clientX - lastMouseX
    (clientX, rotationY + deltaX * (5 / 1000), deltaX * (5 / 100))
  else (lastMouseX, rotationY, av)

/-- In-place update of the element at one index of a list, leaving all
other elements untouched (the shape of the aliased `data.tree` write). -/
def modifyAt {α : Type} : ℕ → (α → α) → List α → List α
  | _, _, [] => []
  | 0, f, x :: xs => f x :: xs
  | n + 1, f, x :: xs => x :: modifyAt n f xs

/-- `PhotoItem.handlePointerMove`: the drag handler writes the projected
local target only into the dragged entity's `data.tree` field. -/
def dragWriteTree (i : ℕ) (p : ℚ × ℚ × ℚ)
    (l : List (String × DualPosition)) : List (String × DualPosition) :=
  modifyAt i (fun e => (e.1, { e.2 with tree := p })) l

/-- `PhotoOrnaments` reconciliation effect: keep previous entries whose url
is still in `images`, and append freshly generated entries for urls not
seen before.  The random generation of new entries is modelled by `gen`,
indexed by the position of the new url. -/
def reconcilePhotoData (gen : ℕ → DualPosition)
    (prev : List (String × DualPosition)) (images : List String) :
    List (String × DualPosition) :=
  prev.filter (fun p => images.contains p.1) ++
    ((images.filter (fun url => !((prev.map Prod.fst).contains url))).enum.map
      (fun e => (e.2, gen e.1)))

/-- The two morph states of `types.ts` (`TreeMorphState`). -/
inductive TreeMorphState
  | scattered
  | treeShape
deriving DecidableEq

/-- The edge-triggered gesture actions delivered to `handleGestureAction`. -/
inductive GestureAction
  | view
  | next
  | close
deriving DecidableEq

/-- The `App` state touched by the gesture handlers: the cooldown
timestamp, the image list, the viewer index/image/rotation, and the morph
state. -/
structure AppState where
  lastGestureTime : ℤ
  userImages : List String
  currentIndex : ℕ
  viewingImage : Option String
  viewingRotation : ℚ
  treeState : TreeMorphState
deriving DecidableEq

/-- `App.handleGestureAction`: edge-triggered actions are dropped when less
than 1000 ms have elapsed since the last accepted action; an accepted
action stamps the cooldown timestamp and then runs the viewer logic. -/
def handleGestureAction (now : ℤ) (action : GestureAction) (s : AppState) :
    AppState :=
  if now - s.lastGestureTime < 1000 then s
  else
    let s1 := { s with lastGestureTime := now }
    match action with
    | .next =>
      if 0 < s1.userImages.length then
        let nextIdx := (s1.currentIndex + 1) % s1.userImages.length
        let s2 := { s1 with currentIndex := nextIdx }
        if s2.viewingImage.isSome then
          { s2 with viewingImage := s2.userImages.get? nextIdx,
                    viewingRotation := 0 }
        else s2
      else s1
    | .view =>
      if 0 < s1.userImages.length then
        if s1.viewingImage.isSome then s1
        else
          { s1 with viewingImage := s1.userImages.get? s1.currentIndex,
                    viewingRotation := 0 }
      else s1
    | .close =>
      if s1.viewingImage.isSome then { s1 with viewingImage := none } else s1

/-- `App.handleGestureStateChange`: level-triggered state signals are
applied whenever they differ from the current state, with no cooldown
check and no timestamp update. -/
def handleGestureStateChange (newState : TreeMorphState) (s : AppState) :
    AppState :=
  if newState ≠ s.treeState then { s with treeState := newState } else s

/-- A concrete `App` state used to instantiate the cooldown theorem. -/
def appDemo : AppState :=
  { lastGestureTime := 0, userImages := ["a"], currentIndex := 0,
    viewingImage := none, viewingRotation := 0, treeState := .scattered }

/-- A concrete two-ornament collection used to instantiate theorems. -/
def demoList : List (String × DualPosition) :=
  [("a", { tree := (0, 0, 0), scatter := (1, 2, 3), rotationSpeed := 0,
           phaseOffset := 0, scale := 110 }),
   ("b", { tree := (4, 4, 4), scatter := (7, 8, 9), rotationSpeed := 0,
           phaseOffset := 1, scale := 110 })]

/-- A concrete generator of fresh ornament data used to instantiate
theorems; the index records which call produced the entry. -/
def genDemo (i : ℕ) : DualPosition :=
  { tree := ((i : ℚ), 0, 0), scatter := (0, 0, 0), rotationSpeed := 0,
    phaseOffset := 0, scale := 110 }

/-- A hand landmark: a normalized 2D point `{x, y}` of the detector
stream.  Coordinates are modelled as reals. -/
structure Landmark where
  x : ℝ
  y : ℝ

/-- `getDistance` of `GestureManager`: planar Euclidean distance
`sqrt((p1.x - p2.x)^2 + (p1.y - p2.y)^2)`. -/
noncomputable def getDistance (p1 p2 : Landmark) : ℝ :=
  Real.sqrt ((p1.x - p2.x) ^ 2 + (p1.y - p2.y) ^ 2)

/-- The per-digit extension test of `onResults`, as the source writes it:
`getDistance(tip, wrist) > refDist * 1.65` where
`refDist = getDistance(wrist, palmCenter)`. -/
def fingerExtended (wrist palmCenter tip : Landmark) : Prop :=
  getDistance tip wrist > getDistance wrist palmCenter * 1.65

/-- The extension formula as the specification words it:
`distance(tip, wrist) > 1.65 · distance(wrist, palmCenter)`. -/
def claimExtended (wrist palmCenter tip : Landmark) : Prop :=
  getDistance tip wrist > 1.65 * getDistance wrist palmCenter

/-- A call emitted by the gesture classifier: an edge-triggered action
(`onGestureAction`) or a level-triggered state signal (`onStateChange`). -/
inductive GestureCall
  | action (a : GestureAction)
  | stateChange (s : TreeMorphState)
deriving DecidableEq

/-- The fingertip landmark indices `[4, 8, 12, 16, 20]` in digit order
thumb, index, middle, ring, pinky. -/
def tipIndex : Fin 5 → ℕ := ![4, 8, 12, 16, 20]

/-- `extendedCount` of `onResults`: `extended.filter(v => v).length`. -/
def extendedCount (e : Fin 5 → Bool) : ℕ :=
  ((List.finRange 5).filter (fun i => e i)).length

/-- The classification chain of `onResults` over the extended-digit
vector, in source order: the `VIEW`, `NEXT` and `CLOSE` patterns, then
four-or-more extended, then none extended, otherwise no call. -/
def classify (e : Fin 5 → Bool) : Option GestureCall :=
  if extendedCount e = 1 ∧ e 1 then some (.action .view)
  else if extendedCount e = 2 ∧ e 1 ∧ e 2 ∧ ¬ e 0 ∧ ¬ e 3 ∧ ¬ e 4 then
    some (.action .next)
  else if extendedCount e = 3 ∧ e 2 ∧ e 3 ∧ e 4 ∧ ¬ e 1 ∧ ¬ e 0 then
    some (.action .close)
  else if 4 ≤ extendedCount e then some (.stateChange .treeShape)
  else if extendedCount e = 0 then some (.stateChange .scattered)
  else none

/-- The classification as the claim words it: exactly index extended gives
`VIEW`; exactly index and middle gives `NEXT`; exactly middle, ring and
pinky gives `CLOSE`; four or more extended sets the structured state; none
extended sets the scattered state; any other pattern emits nothing. -/
def claimClassify (e : Fin 5 → Bool) : Option GestureCall :=
  if e 1 ∧ ¬ e 0 ∧ ¬ e 2 ∧ ¬ e 3 ∧ ¬ e 4 then some (.action .view)
  else if e 1 ∧ e 2 ∧ ¬ e 0 ∧ ¬ e 3 ∧ ¬ e 4 then some (.action .next)
  else if e 2 ∧ e 3 ∧ e 4 ∧ ¬ e 0 ∧ ¬ e 1 then some (.action .close)
  else if 4 ≤ extendedCount e then some (.stateChange .treeShape)
  else if extendedCount e = 0 then some (.stateChange .scattered)
  else none

/-- The displayed classification status of the gesture panel. -/
inductive LocalStatus
  | initializing
  | waiting
  | indeterminate
  | viewStatus
  | nextStatus
  | closeStatus
  | axisMode
  | scatterMode
deriving DecidableEq

/-- Shared state written by the `onResults` callback: the continuous hand
X, the hand-active flag and the displayed classification. -/
structure GMState where
  handX : ℝ
  isHandActive : Bool
  localStatus : LocalStatus

/-- One hand of the landmark stream: indexing may fail, which models
malformed samples with missing landmark entries. -/
def Hand : Type := ℕ → Option Landmark

open Classical in
/-- The guarded `onResults` callback: a nonempty hand list sets the
hand-active flag before any validation; the hand X is written as soon as
the wrist landmark exists; the classification runs only when both wrist
and palm-center are present, with a missing fingertip treated as not
extended; an empty hand list clears the flag and shows the waiting
status. -/
noncomputable def onResultsG (s : GMState)
    (multiHandLandmarks : List (Option Hand)) : GMState × Option GestureCall :=
  match multiHandLandmarks with
  | [] => ({ s with isHandActive := false, localStatus := .waiting }, none)
  | lmOpt :: _ =>
    let s1 := { s with isHandActive := true }
    match lmOpt with
    | none => (s1, none)
    | some lm =>
      match lm 0 with
      | none => (s1, none)
      | some wrist =>
        let s2 := { s1 with handX := wrist.x }
        match lm 9 with
        | none => (s2, none)
        | some palmCenter =>
          let e : Fin 5 → Bool := fun i =>
            match lm (tipIndex i) with
            | some tip => decide (fingerExtended wrist palmCenter tip)
            | none => false
          match classify e with
          | some (.action .view) =>
            ({ s2 with localStatus := .viewStatus }, some (.action .view))
          | some (.action .next) =>
            ({ s2 with localStatus := .nextStatus }, some (.action .next))
          | some (.action .close) =>
            ({ s2 with localStatus := .closeStatus }, some (.action .close))
          | some (.stateChange .treeShape) =>
            ({ s2 with localStatus := .axisMode }, some (.stateChange .treeShape))
          | some (.stateChange .scattered) =>
            ({ s2 with localStatus := .scatterMode }, some (.stateChange .scattered))
          | none => ({ s2 with localStatus := .indeterminate }, none)

/-- A concrete shared gesture state used to instantiate theorems. -/
noncomputable def gmDemo : GMState :=
  { handX := 1 / 2, isHandActive := false, localStatus := .initializing }

/-- A malformed hand with no landmarks at all. -/
def handNoWrist : Hand := fun _ => none

/-- A malformed hand carrying only the wrist landmark. -/
noncomputable def handNoPalm : Hand := fun n => if n = 0 then some ⟨1 / 2, 1 / 2⟩ else none

/-- A well-formed hand with exactly the index finger extended: wrist at
the origin, every other landmark one unit away, index fingertip two units
away. -/
noncomputable def handIndexOnly : Hand := fun n =>
  if n = 0 then some ⟨0, 0⟩ else if n = 8 then some ⟨0, 2⟩ else some ⟨0, 1⟩

/-- A 3D point with real coordinates. -/
abbrev V3R := ℝ × ℝ × ℝ

/-- The acceptance test of `getOffAxisPosition`: the perpendicular
distances of the candidate to the three principal axes
(`sqrt(y²+z²)`, `sqrt(x²+z²)`, `sqrt(x²+y²)`) all exceed the threshold. -/
noncomputable def offAxisAccept (p : V3R) (axisThreshold : ℝ) : Prop :=
  Real.sqrt (p.2.1 * p.2.1 + p.2.2 * p.2.2) > axisThreshold ∧
    Real.sqrt (p.1 * p.1 + p.2.2 * p.2.2) > axisThreshold ∧
    Real.sqrt (p.1 * p.1 + p.2.1 * p.2.1) > axisThreshold

/-- One candidate draw of `getOffAxisPosition` from three unit random
values: spherical coordinates with radial component
`(0.3 + 0.7 * w) * radius`. -/
noncomputable def offAxisCandidate (radius u v w : ℝ) : V3R :=
  let phi := Real.arccos (2 * u - 1)
  let theta := v * Real.pi * 2
  let r := (0.3 + 0.7 * w) * radius
  (r * Real.sin phi * Real.cos theta,
   r * Real.sin phi * Real.sin theta,
   r * Real.cos phi)

open Classical in
/-- The rejection loop of `getOffAxisPosition`: draw the candidate at
index `i`; accept it if the axis-distance test passes; otherwise retry
while fuel remains, and return the last candidate drawn when it runs
out. -/
noncomputable def offAxisGo (cand : ℕ → V3R) (axisThreshold : ℝ) :
    ℕ → ℕ → V3R
  | fuel, i =>
    if offAxisAccept (cand i) axisThreshold then cand i
    else
      match fuel with
      | 0 => cand i
      | fuel' + 1 => offAxisGo cand axisThreshold fuel' (i + 1)

/-- `getOffAxisPosition`: up to 100 candidate draws (the first plus 99
retries), each produced by `offAxisCandidate` from the random stream. -/
noncomputable def getOffAxisPosition (radius axisThreshold : ℝ)
    (rnd : ℕ → ℝ × ℝ × ℝ) : V3R :=
  offAxisGo (fun i => offAxisCandidate radius (rnd i).1 (rnd i).2.1 (rnd i).2.2)
    axisThreshold 99 0

/-- `getCrossPosition` (first version): a point along one of the three
principal axes, uniform along the arm, with an area-uniform perpendicular
disk offset and independent per-axis noise. -/
noncomputable def getCrossPosition (armLength thickness randomness : ℝ)
    (axis : ℕ) (uLong uAngle uRadius nX nY nZ : ℝ) : V3R :=
  let longPos := (uLong - 0.5) * armLength
  let angle := uAngle * Real.pi * 2
  let radius := Real.sqrt uRadius * thickness
  let t1 := Real.cos angle * radius
  let t2 := Real.sin angle * radius
  let base : V3R :=
    if axis = 0 then (longPos, t1, t2)
    else if axis = 1 then (t1, longPos, t2)
    else (t1, t2, longPos)
  (base.1 + (nX - 0.5) * randomness,
   base.2.1 + (nY - 0.5) * randomness,
   base.2.2 + (nZ - 0.5) * randomness)

/-- `getCrossPosition` (second, axis-remapped version): logical axis 1
runs along the z axis and logical axis 2 along the vertical y axis. -/
noncomputable def getCrossPositionV2 (armLength thickness randomness : ℝ)
    (axis : ℕ) (uLong uAngle uRadius nX nY nZ : ℝ) : V3R :=
  let longPos := (uLong - 0.5) * armLength
  let angle := uAngle * Real.pi * 2
  let radius := Real.sqrt uRadius * thickness
  let t1 := Real.cos angle * radius
  let t2 := Real.sin angle * radius
  let base : V3R :=
    if axis = 0 then (longPos, t1, t2)
    else if axis = 1 then (t1, t2, longPos)
    else (t1, longPos, t2)
  (base.1 + (nX - 0.5) * randomness,
   base.2.1 + (nY - 0.5) * randomness,
   base.2.2 + (nZ - 0.5) * randomness)

/-- Component of a point along a principal axis index. -/
def axisComp : ℕ → V3R → ℝ
  | 0, p => p.1
  | 1, p => p.2.1
  | _, p => p.2.2

/-- Combined radial magnitude of the two components perpendicular to a
principal axis index. -/
noncomputable def perpNorm : ℕ → V3R → ℝ
  | 0, p => Real.sqrt (p.2.1 ^ 2 + p.2.2 ^ 2)
  | 1, p => Real.sqrt (p.1 ^ 2 + p.2.2 ^ 2)
  | _, p => Real.sqrt (p.1 ^ 2 + p.2.1 ^ 2)

/-- The documented axis remapping of the second `getCrossPosition`
version: logical axes 0, 1, 2 run along the world axes x, z, y. -/
def axisMapV2 : ℕ → ℕ
  | 0 => 0
  | 1 => 2
  | _ => 1

theorem morphStep_between (targetProgress speed delta p : ℚ)
    (hrd : 0 ≤ speed * delta) (hrd1 : speed * delta ≤ 1) :
    min p targetProgress ≤ morphStep targetProgress speed delta p ∧
      morphStep targetProgress speed delta p ≤ max p targetProgress ∧
      |targetProgress - morphStep targetProgress speed delta p| ≤
        |targetProgress - p| := by
  unfold morphStep
  by_cases h : 1 / 1000 < |targetProgress - p|
  · simp only [h, if_true]
    rcases le_total p targetProgress with hpt | hpt
    · have h0 : 0 ≤ targetProgress - p := by linarith
      constructor
      · have : 0 ≤ (targetProgress - p) * (speed * delta) := mul_nonneg h0 hrd
        rw [min_eq_left hpt]; nlinarith
      constructor
      · rw [max_eq_right hpt]; nlinarith
      · rw [abs_of_nonneg h0, abs_of_nonneg (by nlinarith)]
        nlinarith
    · have h0 : targetProgress - p ≤ 0 := by linarith
      constructor
      · rw [min_eq_right hpt]; nlinarith
      constructor
      · rw [max_eq_left hpt]; nlinarith
      · rw [abs_of_nonpos h0, abs_of_nonpos (by nlinarith)]
        nlinarith
  · simp only [h, if_false]
    refine ⟨min_le_right _ _, le_max_right _ _, ?_⟩
    simp [abs_nonneg]

theorem morphStep_mem_unitInterval (targetProgress speed delta p : ℚ)
    (ht : targetProgress = 0 ∨ targetProgress = 1)
    (hp0 : 0 ≤ p) (hp1 : p ≤ 1)
    (hrd : 0 ≤ speed * delta) (hrd1 : speed * delta ≤ 1) :
    0 ≤ morphStep targetProgress speed delta p ∧
      morphStep targetProgress speed delta p ≤ 1 := by
  obtain ⟨h1, h2, _⟩ := morphStep_between targetProgress speed delta p hrd hrd1
  have ht0 : 0 ≤ targetProgress := by rcases ht with h | h <;> simp [h]
  have ht1 : targetProgress ≤ 1 := by rcases ht with h | h <;> simp [h]
  constructor
  · calc (0 : ℚ) ≤ min p targetProgress := le_min hp0 ht0
      _ ≤ _ := h1
  · calc morphStep targetProgress speed delta p ≤ max p targetProgress := h2
      _ ≤ 1 := max_le hp1 ht1

/-- C1 (corrected): for `target ∈ {0,1}`, `progress ∈ [0,1]` and a positive
rate and frame delta satisfying `rate * delta ≤ 1`, a single morph step stays
between the current progress and the target (hence inside `[0,1]`, with no
overshoot) and never increases the distance to the target; folding over any
sequence of such deltas keeps the progress in `[0,1]` and moves it
monotonically toward the target.  The same holds for the
`lerp(progress, target, delta * 4)` variant when `delta * 4 ≤ 1`. -/
theorem morph_progress_monotone_bounded (targetProgress speed p : ℚ)
    (ht : targetProgress = 0 ∨ targetProgress = 1)
    (hp0 : 0 ≤ p) (hp1 : p ≤ 1) (hs : 0 < speed) :
    (∀ delta : ℚ, 0 < delta → speed * delta ≤ 1 →
      min p targetProgress ≤ morphStep targetProgress speed delta p ∧
        morphStep targetProgress speed delta p ≤ max p targetProgress ∧
        0 ≤ morphStep targetProgress speed delta p ∧
        morphStep targetProgress speed delta p ≤ 1 ∧
        |targetProgress - morphStep targetProgress speed delta p| ≤
          |targetProgress - p|) ∧
    (∀ deltas : List ℚ, (∀ d ∈ deltas, 0 < d ∧ speed * d ≤ 1) →
      0 ≤ morphRun targetProgress speed deltas p ∧
        morphRun targetProgress speed deltas p ≤ 1 ∧
        |targetProgress - morphRun targetProgress speed deltas p| ≤
          |targetProgress - p|) ∧
    (∀ delta : ℚ, 0 < delta → delta * 4 ≤ 1 →
      min p targetProgress ≤ morphStepLerp targetProgress delta p ∧
        morphStepLerp targetProgress delta p ≤ max p targetProgress) := by
  refine ⟨?_, ?_, ?_⟩
  · intro delta hd hsd
    have hrd : 0 ≤ speed * delta := le_of_lt (mul_pos hs hd)
    obtain ⟨h1, h2, h3⟩ := morphStep_between targetProgress speed delta p hrd hsd
    obtain ⟨h4, h5⟩ :=
      morphStep_mem_unitInterval targetProgress speed delta p ht hp0 hp1 hrd hsd
    exact ⟨h1, h2, h4, h5, h3⟩
  · intro deltas hds
    induction deltas generalizing p with
    | nil => simpa [morphRun] using ⟨hp0, hp1⟩
    | cons d ds ih =>
      obtain ⟨hd, hsd⟩ := hds d (List.mem_cons_self _ _)
      have hrd : 0 ≤ speed * d := le_of_lt (mul_pos hs hd)
      obtain ⟨_, _, h3⟩ := morphStep_between targetProgress speed d p hrd hsd
      obtain ⟨h4, h5⟩ :=
        morphStep_mem_unitInterval targetProgress speed d p ht hp0 hp1 hrd hsd
      have step : morphRun targetProgress speed (d :: ds) p =
          morphRun targetProgress speed ds (morphStep targetProgress speed d p) := by
        simp [morphRun]
      rw [step]
      obtain ⟨ih1, ih2, ih3⟩ :=
        ih (morphStep targetProgress speed d p) h4 h5
          (fun e he => hds e (List.mem_cons_of_mem _ he))
      exact ⟨ih1, ih2, le_trans ih3 h3⟩
  · intro delta hd hsd
    have h40 : 0 ≤ delta * 4 := by linarith
    unfold morphStepLerp lerpQ
    rcases le_total p targetProgress with hpt | hpt
    · constructor
      · rw [min_eq_left hpt]; nlinarith
      · rw [max_eq_right hpt]; nlinarith
    · constructor
      · rw [min_eq_right hpt]; nlinarith
      · rw [max_eq_left hpt]; nlinarith

/-- C1 witness: concrete instantiation of the corrected statement at
`target = 1`, `p = 1/2`, `speed = 1.2`, a single delta of `1/2` and the
delta sequence `[1/2, 1/4]`. -/
theorem morph_progress_monotone_bounded_witness :
    ((1 : ℚ) = 0 ∨ (1 : ℚ) = 1) ∧ (0 : ℚ) ≤ 1 / 2 ∧ (1 : ℚ) / 2 ≤ 1 ∧
      (0 : ℚ) < 12 / 10 ∧
      (0 : ℚ) < 1 / 2 ∧ (12 : ℚ) / 10 * (1 / 2) ≤ 1 ∧
      (0 ≤ morphRun 1 (12 / 10) [1 / 2, 1 / 4] (1 / 2) ∧
        morphRun 1 (12 / 10) [1 / 2, 1 / 4] (1 / 2) ≤ 1 ∧
        |(1 : ℚ) - morphRun 1 (12 / 10) [1 / 2, 1 / 4] (1 / 2)| ≤
          |(1 : ℚ) - 1 / 2|) := by
  refine ⟨by norm_num, by norm_num, by norm_num, by norm_num, by norm_num,
    by norm_num, ?_⟩
  exact (morph_progress_monotone_bounded 1 (12 / 10) (1 / 2) (by norm_num)
    (by norm_num) (by norm_num) (by norm_num)).2.1 [1 / 2, 1 / 4]
    (by intro d hd; fin_cases hd <;> norm_num)

/-- C1 counterexample: with the positive rate `1.2` of the source and the
positive frame delta `1`, one morph step from `progress = 0` toward
`target = 1` yields `1.2`, which overshoots the interval `[0,1]`; so the
claim does not hold for every positive rate and every positive delta. -/
theorem morph_progress_overshoots :
    morphStep 1 (12 / 10) 1 0 = 12 / 10 ∧ ¬ morphStep 1 (12 / 10) 1 0 ≤ 1 := by
  constructor
  · unfold morphStep
    norm_num
  · unfold morphStep
    norm_num

/-- C2 (corrected): at `progress = 0` the interpolated (non-oscillatory)
target position equals `scatterPosition` exactly and the chaos oscillation
is at full amplitude `150`; at `progress = 1` it equals `structuredPosition`
exactly and the chaos oscillation amplitude is `0`, but the additive float
oscillation retains base amplitude `15` when not dragging (it is zero only
while dragging; the second version retains `20`). -/
theorem photo_interp_endpoints (d : DualPosition) :
    interpPos d 0 = d.scatter ∧ interpPos d 1 = d.tree ∧
      chaosAmp (1 - easeProgress 0) = 150 ∧
      chaosAmp (1 - easeProgress 1) = 0 ∧
      floatAmp (1 - easeProgress 1) false = 15 ∧
      floatAmp (1 - easeProgress 1) true = 0 ∧
      floatAmpSecond (1 - easeProgress 1) = 20 := by
  have h0 : easeProgress 0 = 0 := by norm_num [easeProgress, smoothstep]
  have h1 : easeProgress 1 = 1 := by norm_num [easeProgress, smoothstep]
  refine ⟨?_, ?_, ?_, ?_, ?_, ?_, ?_⟩
  · simp [interpPos, h0, lerpQ]
  · simp [interpPos, h1, lerpQ]
  · norm_num [chaosAmp, h0]
  · norm_num [chaosAmp, h1]
  · norm_num [floatAmp, floatFactor, h1]
  · norm_num [floatAmp, floatFactor, h1]
  · norm_num [floatAmpSecond, h1]

/-- C2 counterexample: at `progress = 1` (not dragging) the additive float
oscillation amplitude of `PhotoItem.useFrame` is `15`, not `0`, so the
claim that the additive oscillation amplitude is zero at `progress = 1`
fails on the code. -/
theorem float_oscillation_nonzero_at_structured :
    floatAmp (1 - easeProgress 1) false = 15 ∧ (15 : ℚ) ≠ 0 := by
  constructor
  · norm_num [floatAmp, floatFactor, easeProgress, smoothstep]
  · norm_num

/-- C5 (confirmed): per tick, drag input and gesture input are mutually
exclusive.  While dragging, the first-version frame step is independent of
the hand inputs: the velocity only undergoes friction and `lastHandX` is
untouched.  In the second version a photo drag zeroes the velocity and
skips the rotation update, and a scene drag suppresses the gesture branch.
Conversely the pointer-move drag handler is a no-op when no drag is
active. -/
theorem drag_gesture_mutual_exclusion :
    (∀ (hA hA' : Bool) (hX hX' delta : ℚ) (s : RotState),
      frameStepV1 true hA hX delta s = frameStepV1 true hA' hX' delta s) ∧
    (∀ (hA : Bool) (hX delta : ℚ) (s : RotState),
      (frameStepV1 true hA hX delta s).angularVelocity =
        s.angularVelocity * (96 / 100) ∧
      (frameStepV1 true hA hX delta s).lastHandX = s.lastHandX) ∧
    (∀ (dScene hA : Bool) (hX delta : ℚ) (s : RotState),
      (frameStepV2 true dScene hA hX delta s).angularVelocity = 0 ∧
      (frameStepV2 true dScene hA hX delta s).rotationY = s.rotationY) ∧
    (∀ (hA : Bool) (hX delta : ℚ) (s : RotState),
      (frameStepV2 false true hA hX delta s).angularVelocity =
        s.angularVelocity * (90 / 100) ∧
      (frameStepV2 false true hA hX delta s).lastHandX = s.lastHandX) ∧
    (∀ clientX lastMouseX rotationY av : ℚ,
      handlePointerMoveV1 false clientX lastMouseX rotationY av =
        (lastMouseX, rotationY, av)) := by
  refine ⟨?_, ?_, ?_, ?_, ?_⟩
  · intro hA hA' hX hX' delta s
    simp [frameStepV1]
  · intro hA hX delta s
    constructor <;> simp [frameStepV1]
  · intro dScene hA hX delta s
    constructor <;> simp [frameStepV2]
  · intro hA hX delta s
    constructor <;> simp [frameStepV2]
  · intro clientX lastMouseX rotationY av
    simp [handlePointerMoveV1]

theorem modifyAt_get?_ne {α : Type} (f : α → α) :
    ∀ (l : List α) (i j : ℕ), j ≠ i → (modifyAt i f l).get? j = l.get? j := by
  intro l
  induction l with
  | nil => intro i j _; simp [modifyAt]
  | cons x xs ih =>
    intro i j h
    cases i with
    | zero =>
      cases j with
      | zero => exact absurd rfl h
      | succ j' => simp [modifyAt]
    | succ i' =>
      cases j with
      | zero => simp [modifyAt]
      | succ j' =>
        simpa [modifyAt] using ih i' j' (fun hh => h (by rw [hh]))

theorem modifyAt_get?_eq {α : Type} (f : α → α) :
    ∀ (l : List α) (i : ℕ), (modifyAt i f l).get? i = (l.get? i).map f := by
  intro l
  induction l with
  | nil => intro i; simp [modifyAt]
  | cons x xs ih =>
    intro i
    cases i with
    | zero => simp [modifyAt]
    | succ i' => simpa [modifyAt] using ih i'

/-- C6 (corrected): a drag of ornament `i` writes the projected pointer
position only into that entity's `tree` (structured) position: every other
entry of the collection is unchanged, and the dragged entry keeps its url,
`scatter`, `phaseOffset`, `rotationSpeed` and `scale`.  The float
oscillation amplitude is suspended to zero for the drag's duration, but
(see the counterexample) the chaos oscillation is not suspended. -/
theorem drag_writes_only_tree (l : List (String × DualPosition)) (i j : ℕ)
    (p : ℚ × ℚ × ℚ) (hij : j ≠ i) :
    (dragWriteTree i p l).get? j = l.get? j ∧
      (dragWriteTree i p l).get? i =
        (l.get? i).map (fun e => (e.1, { e.2 with tree := p })) ∧
      (∀ inverseEase : ℚ, floatAmp inverseEase true = 0) := by
  refine ⟨modifyAt_get?_ne _ l i j hij, modifyAt_get?_eq _ l i, ?_⟩
  intro inverseEase
  simp [floatAmp, floatFactor]

/-- C6 witness: dragging the first entry of the concrete two-ornament
collection to `(5, 6, 7)` leaves the second entry unchanged and rewrites
only the first entry's `tree` field. -/
theorem drag_writes_only_tree_witness :
    (1 : ℕ) ≠ 0 ∧
      ((dragWriteTree 0 (5, 6, 7) demoList).get? 1 = demoList.get? 1 ∧
        (dragWriteTree 0 (5, 6, 7) demoList).get? 0 =
          (demoList.get? 0).map (fun e => (e.1, { e.2 with tree := (5, 6, 7) })) ∧
        (∀ inverseEase : ℚ, floatAmp inverseEase true = 0)) :=
  ⟨by decide, drag_writes_only_tree demoList 0 1 (5, 6, 7) (by decide)⟩

/-- C6 counterexample: during a drag at `progress = 0` the chaos
oscillation amplitude of `PhotoItem.useFrame` is `150`, not `0` — the
source multiplies only the float amplitude by the drag factor, so the
entity's oscillatory amplitude is not zero for the drag's duration. -/
theorem chaos_oscillation_not_suspended_by_drag :
    chaosAmp (1 - easeProgress 0) = 150 ∧ (150 : ℚ) ≠ 0 := by
  constructor
  · norm_num [chaosAmp, easeProgress, smoothstep]
  · norm_num

theorem contains_false_iff (l : List String) (u : String) :
    (!(l.contains u)) = true ↔ u ∉ l := by
  simp [List.elem_iff]

theorem reconcile_map_fst (gen : ℕ → DualPosition)
    (prev : List (String × DualPosition)) (images : List String) :
    (reconcilePhotoData gen prev images).map Prod.fst =
      (prev.filter (fun p => images.contains p.1)).map Prod.fst ++
        images.filter (fun url => !((prev.map Prod.fst).contains url)) := by
  unfold reconcilePhotoData
  rw [List.map_append, List.map_map]
  congr 1
  have : (Prod.fst ∘ fun e : ℕ × String => (e.2, gen e.1)) = Prod.snd := rfl
  rw [this, List.enum_map_snd]

/-- C10 (corrected): when the incoming image list and the previous urls are
free of duplicates, the reconciliation keeps exactly one entity per
distinct url: previous entries whose url is still listed are kept with all
fields unchanged, urls no longer listed are dropped, the resulting url
list is duplicate-free and consists exactly of the listed urls, and every
genuinely new url receives a freshly generated entity. -/
theorem reconcile_keeps_one_entity_per_url (gen : ℕ → DualPosition)
    (prev : List (String × DualPosition)) (images : List String)
    (himg : images.Nodup) (hprev : (prev.map Prod.fst).Nodup) :
    (∀ e ∈ prev, e.1 ∈ images → e ∈ reconcilePhotoData gen prev images) ∧
      (∀ e ∈ prev, e.1 ∉ images →
        e.1 ∉ (reconcilePhotoData gen prev images).map Prod.fst) ∧
      ((reconcilePhotoData gen prev images).map Prod.fst).Nodup ∧
      (∀ u, u ∈ (reconcilePhotoData gen prev images).map Prod.fst ↔
        u ∈ images) ∧
      (∀ u ∈ images, u ∉ prev.map Prod.fst →
        ∃ i, (u, gen i) ∈ reconcilePhotoData gen prev images) := by
  have hmem : ∀ u : String,
      u ∈ (reconcilePhotoData gen prev images).map Prod.fst ↔ u ∈ images := by
    intro u
    rw [reconcile_map_fst, List.mem_append]
    constructor
    · rintro (h | h)
      · obtain ⟨e, he, rfl⟩ := List.mem_map.mp h
        exact List.elem_iff.mp (List.mem_filter.mp he).2
      · exact (List.mem_filter.mp h).1
    · intro hu
      by_cases hp : u ∈ prev.map Prod.fst
      · left
        obtain ⟨e, he, rfl⟩ := List.mem_map.mp hp
        exact List.mem_map.mpr
          ⟨e, List.mem_filter.mpr ⟨he, List.elem_iff.mpr hu⟩, rfl⟩
      · right
        exact List.mem_filter.mpr ⟨hu, (contains_false_iff _ _).mpr hp⟩
  refine ⟨?_, ?_, ?_, hmem, ?_⟩
  · intro e he hu
    exact List.mem_append_left _
      (List.mem_filter.mpr ⟨he, List.elem_iff.mpr hu⟩)
  · intro e _ hu hmem'
    exact hu ((hmem e.1).mp hmem')
  · rw [reconcile_map_fst]
    refine List.Nodup.append ?_ (himg.filter _) ?_
    · exact ((List.filter_sublist prev).map Prod.fst).nodup hprev
    · intro u hu1 hu2
      have h1 : u ∈ prev.map Prod.fst := by
        obtain ⟨e, he, rfl⟩ := List.mem_map.mp hu1
        exact List.mem_map.mpr ⟨e, (List.mem_filter.mp he).1, rfl⟩
      have h2 := (contains_false_iff _ _).mp (List.mem_filter.mp hu2).2
      exact h2 h1
  · intro u hu hp
    have hnew : u ∈ images.filter
        (fun url => !((prev.map Prod.fst).contains url)) :=
      List.mem_filter.mpr ⟨hu, (contains_false_iff _ _).mpr hp⟩
    obtain ⟨i, hi⟩ := List.get?_of_mem hnew
    refine ⟨i, List.mem_append_right _ (List.mem_map.mpr ⟨(i, u), ?_, rfl⟩)⟩
    rw [List.mk_mem_enum_iff_getElem?]
    rw [← List.get?_eq_getElem?]
    exact hi

/-- C10 witness: reconciling the two-ornament collection for urls `"a"`,
`"b"` against the updated list `["b", "c"]` yields exactly the urls
`"b"` and `"c"`. -/
theorem reconcile_keeps_one_entity_per_url_witness :
    (["b", "c"] : List String).Nodup ∧ (demoList.map Prod.fst).Nodup ∧
      (∀ u, u ∈ (reconcilePhotoData genDemo demoList ["b", "c"]).map Prod.fst ↔
        u ∈ (["b", "c"] : List String)) :=
  ⟨by decide, by decide,
    (reconcile_keeps_one_entity_per_url genDemo demoList ["b", "c"]
      (by decide) (by decide)).2.2.2.1⟩

/-- C10 counterexample: updating the image list to `["a", "a"]` from an
empty collection creates two entities for the single distinct url `"a"`;
the reconciliation deduplicates only against previous entries, not within
the incoming list, so the collection does not keep exactly one entity per
distinct url. -/
theorem reconcile_duplicate_url_two_entities :
    ((reconcilePhotoData genDemo [] ["a", "a"]).map Prod.fst).count "a" = 2 ∧
      (2 : ℕ) ≠ 1 := by
  constructor
  · rfl
  · decide

/-- C4 (confirmed): an edge-triggered action arriving less than 1000 ms
after the cooldown timestamp leaves the state completely unchanged; an
accepted action stamps the timestamp with its arrival time, so that any
sequence of further edge-triggered events arriving within 1000 ms of an
accepted event is entirely rejected.  Level-triggered state signals are
never blocked: they always set the morph state, never touch the cooldown
timestamp, and re-delivering the same signal is idempotent. -/
theorem gesture_cooldown_policy :
    (∀ (t : ℤ) (a : GestureAction) (s : AppState),
      t - s.lastGestureTime < 1000 → handleGestureAction t a s = s) ∧
      (∀ (t : ℤ) (a : GestureAction) (s : AppState),
        1000 ≤ t - s.lastGestureTime →
          (handleGestureAction t a s).lastGestureTime = t) ∧
      (∀ (t : ℤ) (a : GestureAction) (s : AppState)
          (evs : List (ℤ × GestureAction)),
        1000 ≤ t - s.lastGestureTime →
        (∀ p ∈ evs, p.1 - t < 1000) →
          evs.foldl (fun st p => handleGestureAction p.1 p.2 st)
            (handleGestureAction t a s) = handleGestureAction t a s) ∧
      (∀ (newState : TreeMorphState) (s : AppState),
        (handleGestureStateChange newState s).treeState = newState ∧
          (handleGestureStateChange newState s).lastGestureTime =
            s.lastGestureTime ∧
          handleGestureStateChange newState (handleGestureStateChange newState s) =
            handleGestureStateChange newState s) := by
  have hrej : ∀ (t : ℤ) (a : GestureAction) (s : AppState),
      t - s.lastGestureTime < 1000 → handleGestureAction t a s = s := by
    intro t a s h
    simp [handleGestureAction, h]
  have hacc : ∀ (t : ℤ) (a : GestureAction) (s : AppState),
      1000 ≤ t - s.lastGestureTime →
        (handleGestureAction t a s).lastGestureTime = t := by
    intro t a s h
    have h' : ¬ (t - s.lastGestureTime < 1000) := not_lt.mpr h
    cases a <;> simp only [handleGestureAction, h', if_false] <;>
      split_ifs <;> rfl
  refine ⟨hrej, hacc, ?_, ?_⟩
  · intro t a s evs h hevs
    have hl : (handleGestureAction t a s).lastGestureTime = t := hacc t a s h
    induction evs with
    | nil => rfl
    | cons p rest ih =>
      have hstep : handleGestureAction p.1 p.2 (handleGestureAction t a s) =
          handleGestureAction t a s := by
        refine hrej p.1 p.2 _ ?_
        rw [hl]
        exact hevs p (List.mem_cons_self _ _)
      rw [List.foldl_cons, hstep]
      exact ih (fun q hq => hevs q (List.mem_cons_of_mem _ hq))
  · intro ns s
    by_cases h : ns = s.treeState
    · simp [handleGestureStateChange, h]
    · simp [handleGestureStateChange, h]

/-- C4 witness: from the demo state (timestamp 0), an action at time 1000
is accepted, and the pose repeating at times 1500 and 1999 is entirely
rejected. -/
theorem gesture_cooldown_policy_witness :
    (1000 : ℤ) ≤ 1000 - appDemo.lastGestureTime ∧
      (∀ p ∈ [((1500 : ℤ), GestureAction.view), ((1999 : ℤ), GestureAction.next)],
        p.1 - 1000 < 1000) ∧
      ([((1500 : ℤ), GestureAction.view), ((1999 : ℤ), GestureAction.next)].foldl
          (fun st p => handleGestureAction p.1 p.2 st)
          (handleGestureAction 1000 .view appDemo) =
        handleGestureAction 1000 .view appDemo) :=
  ⟨by decide, by decide,
    gesture_cooldown_policy.2.2.1 1000 .view appDemo
      [((1500 : ℤ), GestureAction.view), ((1999 : ℤ), GestureAction.next)]
      (by decide) (by decide)⟩

open Classical in
/-- C3 (confirmed): the source's per-digit extension test coincides with
the claim's formula `distance(tip, wrist) > 1.65 · distance(wrist,
palmCenter)`; the source's classification chain agrees with the claim's
priority-ordered classification on every extended-digit vector; and for
every sample with a hand present whose wrist and palm-center exist, the
call emitted by `onResults` is exactly the claim's classification of the
derived extended vector. -/
theorem gesture_classification_correct :
    (∀ e : Fin 5 → Bool, classify e = claimClassify e) ∧
      (∀ wrist palmCenter tip : Landmark,
        fingerExtended wrist palmCenter tip ↔
          claimExtended wrist palmCenter tip) ∧
      (∀ (s : GMState) (lm : Hand) (rest : List (Option Hand))
          (wrist palmCenter : Landmark),
        lm 0 = some wrist → lm 9 = some palmCenter →
          (onResultsG s (some lm :: rest)).2 =
            claimClassify (fun i =>
              match lm (tipIndex i) with
              | some tip => decide (fingerExtended wrist palmCenter tip)
              | none => false)) := by
  have h1 : ∀ e : Fin 5 → Bool, classify e = claimClassify e := by decide
  refine ⟨h1, ?_, ?_⟩
  · intro wrist palmCenter tip
    unfold fingerExtended claimExtended
    rw [mul_comm]
  · intro s lm rest wrist palmCenter h0 h9
    simp only [onResultsG, h0, h9]
    set e : Fin 5 → Bool := fun i =>
      match lm (tipIndex i) with
      | some tip => decide (fingerExtended wrist palmCenter tip)
      | none => false with he
    rw [← h1 e]
    cases hce : classify e with
    | none => simp [hce]
    | some c =>
      cases c with
      | action a => cases a <;> simp [hce]
      | stateChange t => cases t <;> simp [hce]

open Classical in
/-- C3 witness: the concrete well-formed hand with exactly the index
finger extended has its wrist and palm-center landmarks present, and the
emitted call equals the claim's classification of its extended vector. -/
theorem gesture_classification_correct_witness :
    handIndexOnly 0 = some ⟨0, 0⟩ ∧ handIndexOnly 9 = some ⟨0, 1⟩ ∧
      (onResultsG gmDemo [some handIndexOnly]).2 =
        claimClassify (fun i =>
          match handIndexOnly (tipIndex i) with
          | some tip => decide (fingerExtended ⟨0, 0⟩ ⟨0, 1⟩ tip)
          | none => false) :=
  ⟨rfl, rfl, gesture_classification_correct.2.2 gmDemo handIndexOnly []
    ⟨0, 0⟩ ⟨0, 1⟩ rfl rfl⟩

/-- C9 (corrected): a malformed sample never emits a call and never runs
the classification, but shared state is not fully preserved: the
hand-active flag is set to `true` before any landmark validation, and the
hand X is overwritten as soon as the wrist landmark exists, even when the
palm-center landmark is missing.  Only the remaining fields are left
unchanged. -/
theorem malformed_sample_partially_skipped :
    (∀ (s : GMState) (rest : List (Option Hand)),
      onResultsG s (none :: rest) = ({ s with isHandActive := true }, none)) ∧
      (∀ (s : GMState) (lm : Hand) (rest : List (Option Hand)),
        lm 0 = none →
          onResultsG s (some lm :: rest) =
            ({ s with isHandActive := true }, none)) ∧
      (∀ (s : GMState) (lm : Hand) (rest : List (Option Hand))
          (wrist : Landmark),
        lm 0 = some wrist → lm 9 = none →
          onResultsG s (some lm :: rest) =
            ({ s with isHandActive := true, handX := wrist.x }, none)) := by
  refine ⟨fun s rest => rfl, ?_, ?_⟩
  · intro s lm rest h0
    simp only [onResultsG, h0]
  · intro s lm rest wrist h0 h9
    simp only [onResultsG, h0, h9]

/-- C9 witness: the hand with only a wrist landmark satisfies the
malformed-sample hypotheses concretely, and feeding it to the callback
sets the flag and the hand X but emits nothing. -/
theorem malformed_sample_partially_skipped_witness :
    handNoWrist 0 = none ∧ handNoPalm 0 = some ⟨1 / 2, 1 / 2⟩ ∧
      handNoPalm 9 = none ∧
      onResultsG gmDemo [some handNoWrist] =
        ({ gmDemo with isHandActive := true }, none) ∧
      onResultsG gmDemo [some handNoPalm] =
        ({ gmDemo with
            isHandActive := true
            handX := (Landmark.mk (1 / 2) (1 / 2)).x }, none) :=
  ⟨rfl, rfl, rfl,
    malformed_sample_partially_skipped.2.1 gmDemo handNoWrist [] rfl,
    malformed_sample_partially_skipped.2.2 gmDemo handNoPalm [] ⟨1 / 2, 1 / 2⟩
      rfl rfl⟩

/-- C9 counterexample: feeding a nonempty sample whose hand has no usable
landmarks to the callback from the inactive demo state mutates shared
state — the hand-active flag flips from `false` to `true` — even though
the frame emits no call; so malformed frames are not skipped without
mutation. -/
theorem malformed_sample_mutates_state :
    (onResultsG gmDemo [some handNoWrist]).1.isHandActive = true ∧
      gmDemo.isHandActive = false ∧
      (onResultsG gmDemo [some handNoWrist]).2 = none :=
  ⟨rfl, rfl, rfl⟩

theorem offAxisGo_spec (cand : ℕ → V3R) (thr : ℝ) :
    ∀ fuel i : ℕ, ∃ d, d ≤ fuel ∧
      offAxisGo cand thr fuel i = cand (i + d) ∧
      (∀ k, k < d → ¬ offAxisAccept (cand (i + k)) thr) ∧
      (offAxisAccept (cand (i + d)) thr ∨ d = fuel) := by
  intro fuel
  induction fuel with
  | zero =>
    intro i
    by_cases h : offAxisAccept (cand i) thr
    · exact ⟨0, le_refl 0, by simp [offAxisGo, h],
        fun k hk => absurd hk (Nat.not_lt_zero k), Or.inl (by simpa using h)⟩
    · exact ⟨0, le_refl 0, by simp [offAxisGo, h],
        fun k hk => absurd hk (Nat.not_lt_zero k), Or.inr rfl⟩
  | succ fuel' ih =>
    intro i
    by_cases h : offAxisAccept (cand i) thr
    · exact ⟨0, Nat.zero_le _, by simp [offAxisGo, h],
        fun k hk => absurd hk (Nat.not_lt_zero k), Or.inl (by simpa using h)⟩
    · obtain ⟨d, hd, heq, hmiss, hlast⟩ := ih (i + 1)
      refine ⟨d + 1, by omega, ?_, ?_, ?_⟩
      · rw [show offAxisGo cand thr (fuel' + 1) i = offAxisGo cand thr fuel' (i + 1) by
          simp [offAxisGo, h]]
        rw [heq]
        congr 1
        omega
      · intro k hk
        cases k with
        | zero => simpa using h
        | succ k' =>
          have hk' : k' < d := by omega
          have := hmiss k' hk'
          have harg : i + (k' + 1) = i + 1 + k' := by omega
          rw [harg]
          exact this
      · rcases hlast with hacc | hfull
        · left
          have harg : i + (d + 1) = i + 1 + d := by omega
          rw [harg]
          exact hacc
        · right
          omega

/-- C7 (confirmed): for every radius, threshold and random stream, the
off-axis sampler terminates within 100 candidate draws: the result is the
`j`-th candidate for some `j ≤ 99`, every earlier candidate fails the
axis-distance test, and either the returned candidate passes the test (the
first conforming candidate is returned) or `j = 99` and the last candidate
drawn is returned regardless of conformance. -/
theorem offAxis_terminates_within_100 (radius axisThreshold : ℝ)
    (rnd : ℕ → ℝ × ℝ × ℝ) :
    ∃ j, j ≤ 99 ∧
      getOffAxisPosition radius axisThreshold rnd =
        offAxisCandidate radius (rnd j).1 (rnd j).2.1 (rnd j).2.2 ∧
      (∀ k, k < j →
        ¬ offAxisAccept
          (offAxisCandidate radius (rnd k).1 (rnd k).2.1 (rnd k).2.2)
          axisThreshold) ∧
      (offAxisAccept
          (offAxisCandidate radius (rnd j).1 (rnd j).2.1 (rnd j).2.2)
          axisThreshold ∨ j = 99) := by
  obtain ⟨d, hd, heq, hmiss, hlast⟩ :=
    offAxisGo_spec
      (fun i => offAxisCandidate radius (rnd i).1 (rnd i).2.1 (rnd i).2.2)
      axisThreshold 99 0
  refine ⟨d, hd, ?_, ?_, ?_⟩
  · simpa [getOffAxisPosition] using heq
  · intro k hk
    simpa using hmiss k hk
  · simpa using hlast

theorem crossLong_bounds (L uLong : ℝ) (hL : 0 < L) (hu0 : 0 ≤ uLong)
    (hu1 : uLong ≤ 1) :
    -(L / 2) ≤ (uLong - 0.5) * L ∧ (uLong - 0.5) * L ≤ L / 2 := by
  constructor <;> nlinarith

theorem crossPerp_le (Th uAngle uRadius : ℝ) (hTh : 0 ≤ Th)
    (_hr0 : 0 ≤ uRadius) (hr1 : uRadius ≤ 1) :
    Real.sqrt
        ((Real.cos (uAngle * Real.pi * 2) * (Real.sqrt uRadius * Th)) ^ 2 +
          (Real.sin (uAngle * Real.pi * 2) * (Real.sqrt uRadius * Th)) ^ 2) ≤
      Th := by
  have h := Real.sin_sq_add_cos_sq (uAngle * Real.pi * 2)
  have hsq : (Real.cos (uAngle * Real.pi * 2) * (Real.sqrt uRadius * Th)) ^ 2 +
      (Real.sin (uAngle * Real.pi * 2) * (Real.sqrt uRadius * Th)) ^ 2 =
      (Real.sqrt uRadius * Th) ^ 2 := by
    linear_combination (Real.sqrt uRadius * Th) ^ 2 * h
  rw [hsq, Real.sqrt_sq (by positivity)]
  have h1 : Real.sqrt uRadius ≤ 1 := Real.sqrt_le_one.mpr hr1
  nlinarith [Real.sqrt_nonneg uRadius]

/-- C8 (confirmed): with zero noise amplitude, arm length `L > 0`,
thickness `Th ≥ 0` and unit random draws, the cross sample places the
selected-axis component inside `[-L/2, L/2]` and the two non-selected
components at combined radial magnitude at most `Th`; the axis-remapped
second version satisfies the same bounds along its documented world axis
(`axisMapV2`). -/
theorem cross_position_bounds (L Th uLong uAngle uRadius nX nY nZ : ℝ)
    (axis : ℕ) (hax : axis < 3) (hL : 0 < L) (hTh : 0 ≤ Th)
    (hu0 : 0 ≤ uLong) (hu1 : uLong ≤ 1) (hr0 : 0 ≤ uRadius)
    (hr1 : uRadius ≤ 1) :
    (-(L / 2) ≤ axisComp axis
        (getCrossPosition L Th 0 axis uLong uAngle uRadius nX nY nZ) ∧
      axisComp axis
        (getCrossPosition L Th 0 axis uLong uAngle uRadius nX nY nZ) ≤ L / 2 ∧
      perpNorm axis
        (getCrossPosition L Th 0 axis uLong uAngle uRadius nX nY nZ) ≤ Th) ∧
      (-(L / 2) ≤ axisComp (axisMapV2 axis)
          (getCrossPositionV2 L Th 0 axis uLong uAngle uRadius nX nY nZ) ∧
        axisComp (axisMapV2 axis)
          (getCrossPositionV2 L Th 0 axis uLong uAngle uRadius nX nY nZ) ≤
            L / 2 ∧
        perpNorm (axisMapV2 axis)
          (getCrossPositionV2 L Th 0 axis uLong uAngle uRadius nX nY nZ) ≤
            Th) := by
  obtain ⟨hlo, hhi⟩ := crossLong_bounds L uLong hL hu0 hu1
  have hperp := crossPerp_le Th uAngle uRadius hTh hr0 hr1
  interval_cases axis <;>
    · simp [getCrossPosition, getCrossPositionV2, axisComp, perpNorm, axisMapV2]
      exact ⟨hlo, hhi, hperp⟩

/-- C8 witness: concrete instantiation with `L = 2`, `Th = 1`, axis 0 and
unit random draws at their extremes. -/
theorem cross_position_bounds_witness :
    (0 : ℕ) < 3 ∧ (0 : ℝ) < 2 ∧ (0 : ℝ) ≤ 1 ∧
      ((0 : ℝ) ≤ 1 ∧ (1 : ℝ) ≤ 1) ∧
      (-(2 / 2 : ℝ) ≤ axisComp 0 (getCrossPosition 2 1 0 0 1 0 1 0 0 0) ∧
        axisComp 0 (getCrossPosition 2 1 0 0 1 0 1 0 0 0) ≤ 2 / 2 ∧
        perpNorm 0 (getCrossPosition 2 1 0 0 1 0 1 0 0 0) ≤ 1) :=
  ⟨by norm_num, by norm_num, by norm_num, by norm_num,
    (cross_position_bounds 2 1 1 0 1 0 0 0 0 (by norm_num) (by norm_num)
      (by norm_num) (by norm_num) (by norm_num) (by norm_num) (by norm_num)).1⟩
